import Mathlib

/-!
# Verification of the adaptive event-log fetching engine of `eth_tools`

Shallow embedding of `eth_tools/event_fetcher.py` (classes `FetchTask`,
`ContractFetcher`, `EventFetcher`) and the parts of its collaborators the
claims need.

Modelling conventions:

* Python integers are `Int` (block numbers) and `Nat` (widths, counts,
  indices).  `math.ceil(block_count / granularity)` is modelled as exact
  ceiling division (Python computes it through a float; the two agree on
  every magnitude involved here).
* Python exceptions are the inductive `PyError`; fallible code returns
  `Except PyError _`.
* Attribute lookup on a `ContractFetcher` instance is explicit: the class
  body defines exactly one list-valued attribute, spelled
  `BLOCK_GRANUALARITIES` (source line 105), while `_fetch_batch` (line 152)
  and `fetch_events` (line 173) read `self.BLOCK_GRANULARITIES`.  The table
  `classAttrs` records what the class defines, and `lookupAttr` models
  `self.<name>` resolution, producing `AttributeError` for a missing name.
  Alongside the faithful functions, `_fetch_batch_fixed` and
  `fetch_events_fixed` are the same procedures with the attribute-name slip
  corrected (they read the list the class body actually defines); they model
  the behaviour the spec describes and are used to check the claims' content
  independently of the slip.
* The web3 library is external to the repository.  `processLog` models
  web3's `ContractEvent.processLog`: it attaches named arguments per the
  event's ABI-declared inputs in declaration order, indexed inputs drawing
  from the entry's topics after the first, the others from its data slots.
  The transport (`web3.eth.filter(...).get_all_entries()`) is a parameter of
  type `Transport`; a `.error` answer models any exception escaping one
  sub-range request.
* Thread pools are modelled sequentially.  `executor.map` preserves
  submission order, so for successful batches the sequential model returns
  exactly the concatenation the code produces; on a failure it stops at the
  first failing sub-range, the point where iterating `executor.map`
  re-raises.  Every function that can reach the transport also returns the
  list of `(fromBlock, toBlock)` requests it issued, in order.
* Files are a lookup table from path to the list of lines written.
  `smart_open(path, "w")` creates (or truncates) the file at open time,
  before any event is fetched.
-/

namespace EthTools

/-- A raw log entry as delivered by the transport (`LogReceipt`): block
number, topics, opaque data slots, and — once decoded — named arguments. -/
structure LogEntry where
  blockNumber : Int
  topics : List String
  data : List String := []
  namedArguments : Option (List (String × String)) := none
  deriving Repr, DecidableEq

/-- One ABI-declared event parameter: its name and whether it is indexed. -/
structure EventInput where
  name : String
  indexed : Bool
  deriving Repr, DecidableEq

/-- One event of a contract's ABI: its name, anonymity flag, the topic
identifier web3 computes for it (`event.build_filter().topics[0]`), and its
ordered inputs. -/
structure ContractEvent where
  name : String
  anonymous : Bool
  topic0 : String
  inputs : List EventInput
  deriving Repr, DecidableEq

/-- `ContractFetcher.__init__` (lines 107-114): the decoder table holds the
contract's non-anonymous events, keyed by their first filter topic. -/
def events_by_topic (contractEvents : List ContractEvent) : List ContractEvent :=
  contractEvents.filter (fun ev => !ev.anonymous)

/-- Lookup in the decoder table.  The Python dict comprehension lets a later
event with the same key overwrite an earlier one, so the last match wins. -/
def lookupTopic (tbl : List ContractEvent) (t : String) : Option ContractEvent :=
  (tbl.filter (fun ev => ev.topic0 == t)).getLast?

/-- Model of web3's ABI argument decoding: each input, in declaration order,
is paired with a value — indexed inputs consume successive topics, the
others consume successive data slots. -/
def decodeArgs : List EventInput → List String → List String → List (String × String)
  | [], _, _ => []
  | inp :: rest, ts, ds =>
    if inp.indexed then
      (inp.name, ts.headD "") :: decodeArgs rest (ts.drop 1) ds
    else
      (inp.name, ds.headD "") :: decodeArgs rest ts (ds.drop 1)

/-- Model of web3's `ContractEvent.processLog`: returns the entry enriched
with named arguments per the ABI-declared inputs, in declaration order. -/
def processLog (ev : ContractEvent) (entry : LogEntry) : LogEntry :=
  { entry with
      namedArguments := some (decodeArgs ev.inputs (entry.topics.drop 1) entry.data) }

/-- `ContractFetcher.process_log` (lines 116-123): if the entry has topics
and the first one is registered, decode it; otherwise return it unchanged. -/
def process_log (tbl : List ContractEvent) (entry : LogEntry) : LogEntry :=
  match entry.topics with
  | [] => entry
  | t0 :: _ =>
    match lookupTopic tbl t0 with
    | some ev => processLog ev entry
    | none => entry

/-- `ContractFetcher.process_logs` (lines 125-129). -/
def process_logs (tbl : List ContractEvent) (events : List LogEntry) : List LogEntry :=
  events.map (process_log tbl)

/-- Python exceptions distinguished by the embedding. -/
inductive PyError where
  | transportError
  | decodeError
  | attributeError
  | indexError
  | valueError (msg : String)
  deriving Repr, DecidableEq

/-- The class body of `ContractFetcher` defines exactly one list-valued
class attribute, spelled `BLOCK_GRANUALARITIES` (source line 105). -/
def BLOCK_GRANUALARITIES : List Nat := [10000, 1000, 100, 10, 1]

/-- What the `ContractFetcher` class body defines under each list-valued
attribute name. -/
def classAttrs (n : String) : Option (List Nat) :=
  if n = "BLOCK_GRANUALARITIES" then some BLOCK_GRANUALARITIES else none

/-- Python attribute resolution for `self.<n>`: instances define no such
attribute, so the class body is consulted; a missing name is an
`AttributeError`. -/
def lookupAttr (n : String) : Except PyError (List Nat) :=
  match classAttrs n with
  | some v => .ok v
  | none => .error .attributeError

/-- A transport answers one `eth.filter(...).get_all_entries()` request for
an inclusive block range; `.error` models any exception escaping the
request. -/
def Transport : Type := Int → Int → Except PyError (List LogEntry)

/-- Outcome of a fetching function: its result and the transport requests it
issued, in order. -/
abbrev FetchResult := Except PyError (List LogEntry) × List (Int × Int)

/-- `ContractFetcher._fetch_events` (lines 131-138): one transport request
for the inclusive range, whose entries are decoded with `process_logs`. -/
def _fetch_events (tbl : List ContractEvent) (t : Transport) (s e : Int) : FetchResult :=
  match t s e with
  | .ok entries => (.ok (process_logs tbl entries), [(s, e)])
  | .error err => (.error err, [(s, e)])

/-- Sequential model of dispatching a list of inclusive ranges: results are
concatenated in submission order; iteration stops at the first failing
range, where `executor.map` re-raises. -/
def runRanges (f : Int → Int → FetchResult) : List (Int × Int) → FetchResult
  | [] => (.ok [], [])
  | (s, e) :: rest =>
    match f s e with
    | (.error err, log) => (.error err, log)
    | (.ok evs, log) =>
      match runRanges f rest with
      | (.ok evs2, log2) => (.ok (evs ++ evs2), log ++ log2)
      | (.error err, log2) => (.error err, log ++ log2)

/-- `ContractFetcher._fetch_batch_parallel` (lines 140-149): a single range
is fetched directly, several are dispatched to the pool; either way the
events come back in submission (start-ascending) order. -/
def _fetch_batch_parallel (tbl : List ContractEvent) (t : Transport)
    (ranges : List (Int × Int)) : FetchResult :=
  runRanges (_fetch_events tbl t) ranges

/-- `math.ceil(block_count / granularity)` with
`block_count = e - s + 1` (lines 153-154, 172, 175): the number of
sub-ranges of width `g` needed for the inclusive range `[s, e]`.  Empty
ranges (`e < s`) need none. -/
def iterations (g : Nat) (s e : Int) : Nat :=
  if s ≤ e then (e - s).toNat / g + 1 else 0

/-- `start_blocks` (line 155). -/
def start_blocks (g : Nat) (s e : Int) : List Int :=
  (List.range (iterations g s e)).map (fun i : Nat => s + (i : Int) * (g : Int))

/-- `end_blocks` (line 156). -/
def end_blocks (g : Nat) (s e : Int) : List Int :=
  (start_blocks g s e).map (fun b => min (b + (g : Int) - 1) e)

/-- The sub-ranges a width-`g` attempt partitions `[s, e]` into, pairing
`start_blocks` with `end_blocks` as `executor.map` does. -/
def sub_ranges (g : Nat) (s e : Int) : List (Int × Int) :=
  (start_blocks g s e).zip (end_blocks g s e)

/-- The message of the `ValueError` raised when every width failed
(lines 161-164). -/
def unfetchableMsg (address : String) (s e : Int) : String :=
  "unable to fetch events for " ++ address ++ " from block " ++ toString s
    ++ " to " ++ toString e

/-- The `for granularity in ...` loop of `_fetch_batch` (lines 152-164),
abstracted over the granularity list the attribute lookup produced: try each
width in turn, swallowing any exception of a failed attempt; when the list
is exhausted raise `ValueError` naming the contract and the range. -/
def fetch_batch_go (tbl : List ContractEvent) (t : Transport) (address : String)
    (s e : Int) : List Nat → FetchResult
  | [] => (.error (.valueError (unfetchableMsg address s e)), [])
  | g :: gs =>
    match _fetch_batch_parallel tbl t (sub_ranges g s e) with
    | (.ok evs, log) => (.ok evs, log)
    | (.error _, log) =>
      match fetch_batch_go tbl t address s e gs with
      | (r, log2) => (r, log ++ log2)

/-- `ContractFetcher._fetch_batch` (lines 151-164), faithful: the loop reads
`self.BLOCK_GRANULARITIES`, which resolution must answer before any attempt
is made. -/
def _fetch_batch (tbl : List ContractEvent) (t : Transport) (address : String)
    (s e : Int) : FetchResult :=
  match lookupAttr "BLOCK_GRANULARITIES" with
  | .error err => (.error err, [])
  | .ok gs => fetch_batch_go tbl t address s e gs

/-- `_fetch_batch` with the attribute-name slip corrected: the loop runs over
the list the class body actually defines.  This is the behaviour the spec
describes. -/
def _fetch_batch_fixed (tbl : List ContractEvent) (t : Transport) (address : String)
    (s e : Int) : FetchResult :=
  fetch_batch_go tbl t address s e BLOCK_GRANUALARITIES

/-- `ContractFetcher.fetch_events` (lines 166-184), faithful: resolve the
end block (the chain head when `none`), read
`self.BLOCK_GRANULARITIES[0]` as the outer slice width, then fetch each
slice with `_fetch_batch`, yielding events in slice order.  The generator is
modelled by the list of all events it yields when it runs to completion; a
raised error carries no partial output (the faithful engine fails before
yielding anything). -/
def fetch_events (tbl : List ContractEvent) (t : Transport) (address : String)
    (chainHead : Int) (s : Int) (e? : Option Int) : FetchResult :=
  let e := e?.getD chainHead
  match lookupAttr "BLOCK_GRANULARITIES" with
  | .error err => (.error err, [])
  | .ok gs =>
    match gs with
    | [] => (.error .indexError, [])
    | g :: _ => runRanges (_fetch_batch tbl t address) (sub_ranges g s e)

/-- `fetch_events` with the attribute-name slip corrected in both the outer
slicing and the inner width loop. -/
def fetch_events_fixed (tbl : List ContractEvent) (t : Transport) (address : String)
    (chainHead : Int) (s : Int) (e? : Option Int) : FetchResult :=
  let e := e?.getD chainHead
  runRanges (_fetch_batch_fixed tbl t address)
    (sub_ranges (BLOCK_GRANUALARITIES.headD 0) s e)

/-- `FetchTask` (lines 34-69): one fetch job.  The ABI is kept as its list
of event descriptors; checksumming of the address is the identity in this
model. -/
structure FetchTask where
  address : String
  abi : List ContractEvent := []
  start_block : Int
  end_block : Option Int := none
  name : Option String := none
  deriving Repr, DecidableEq

/-- `FetchTask.display_name` (lines 62-69): the name when it is truthy
(present and non-empty), else the address. -/
def FetchTask.display_name (task : FetchTask) : String :=
  match task.name with
  | some n => if n = "" then task.address else n
  | none => task.address

/-- The output path `fetch_all_events` derives for a task (lines 203-206). -/
def filepath (dir : String) (task : FetchTask) : String :=
  dir ++ "/" ++ task.display_name ++ ".jsonl.gz"

/-- The file system: each path maps to the list of lines written to it. -/
abbrev FileSystem := List (String × List String)

/-- Opening a path for writing creates (or truncates) it. -/
def setFile (fs : FileSystem) (p : String) (content : List String) : FileSystem :=
  (p, content) :: fs.filter (fun q => q.1 != p)

/-- The content of a path, when the file exists. -/
def readFile? (fs : FileSystem) (p : String) : Option (List String) :=
  fs.lookup p

/-- Abstract rendering of the one-per-line JSON record
(`json.dumps(event, cls=EthJSONEncoder)`); no claim depends on the exact
rendering. -/
def encodeEvent (entry : LogEntry) : String :=
  toString entry.blockNumber ++ "|" ++ String.intercalate "," entry.topics

/-- Per-job log messages emitted by `fetch_all_events` (lines 214-219). -/
inductive LogMsg where
  | failed (name : Option String) (address : String) (err : PyError)
  | completed (name : Option String) (address : String)
  deriving Repr, DecidableEq

/-- `EventFetcher.fetch_events` (lines 191-194): build the decoder table
from the task's ABI and run the contract fetcher over the task's range. -/
def task_fetch_events (t : Transport) (chainHead : Int) (task : FetchTask) : FetchResult :=
  fetch_events (events_by_topic task.abi) t task.address chainHead
    task.start_block task.end_block

/-- `EventFetcher.fetch_and_persist_events` (lines 196-199): open the output
file for writing — creating it — then stream the fetched events to it one
line each.  A raised error leaves the file as already written; the faithful
engine fails before yielding anything, so a failed job leaves exactly the
empty file it created at open time. -/
def fetch_and_persist_events (t : Transport) (chainHead : Int) (task : FetchTask)
    (output_file : String) (fs : FileSystem) : FileSystem × Option PyError :=
  let fs1 := setFile fs output_file []
  match task_fetch_events t chainHead task with
  | (.ok evs, _) => (setFile fs1 output_file (evs.map encodeEvent), none)
  | (.error err, _) => (fs1, some err)

/-- `EventFetcher.fetch_all_events` (lines 201-219): run every task, each
writing to its own file under `dir`; inspect each outcome, logging a failure
or a completion with the task's name and address, and never re-raise.  The
job pool is modelled sequentially in task order (jobs write to independent
sinks and no claim concerns the interleaving of log lines). -/
def fetch_all_events (t : Transport) (chainHead : Int) (tasks : List FetchTask)
    (dir : String) (fs : FileSystem) : FileSystem × List LogMsg :=
  match tasks with
  | [] => (fs, [])
  | task :: rest =>
    let out := fetch_and_persist_events t chainHead task (filepath dir task) fs
    let entry := match out.2 with
      | some err => LogMsg.failed task.name task.address err
      | none => LogMsg.completed task.name task.address
    let next := fetch_all_events t chainHead rest dir out.1
    (next.1, entry :: next.2)

/-- Transport of the spec scenario: rejects any request spanning more than
5000 blocks, otherwise answers with a single entry at the range's first
block. -/
def scenarioTransport : Transport := fun s e =>
  if 5000 < e - s + 1 then .error .transportError
  else .ok [{ blockNumber := s, topics := [] }]

/-- A transport that fails every request. -/
def failingTransport : Transport := fun _ _ => .error .transportError

/-- A transport that succeeds on every request, answering with a single
entry at the range's first block. -/
def okTransport : Transport := fun s _ => .ok [{ blockNumber := s, topics := [] }]

/-- A transport that succeeds on every request with two entries in the
range's first block. -/
def dupTransport : Transport := fun s _ =>
  .ok [{ blockNumber := s, topics := [] }, { blockNumber := s, topics := [] }]

/-- The blocks of the events the spec scenario yields: one event per
successful width-1000 sub-range over `[0, 25000]`. -/
def scenarioBlocks : List Int :=
  [0, 1000, 2000, 3000, 4000, 5000, 6000, 7000, 8000, 9000,
   10000, 11000, 12000, 13000, 14000, 15000, 16000, 17000, 18000, 19000,
   20000, 21000, 22000, 23000, 24000, 25000]

/-- The transport requests of the spec scenario, in order: within each outer
slice, the failed width-10000 attempt followed by its successful width-1000
partition. -/
def scenarioCalls : List (Int × Int) :=
  [(0, 9999),
   (0, 999), (1000, 1999), (2000, 2999), (3000, 3999), (4000, 4999),
   (5000, 5999), (6000, 6999), (7000, 7999), (8000, 8999), (9000, 9999),
   (10000, 19999),
   (10000, 10999), (11000, 11999), (12000, 12999), (13000, 13999),
   (14000, 14999), (15000, 15999), (16000, 16999), (17000, 17999),
   (18000, 18999), (19000, 19999),
   (20000, 25000),
   (20000, 20999), (21000, 21999), (22000, 22999), (23000, 23999),
   (24000, 24999), (25000, 25000)]

/-- The spec-scenario run of the intent-model engine: range `0..25000`
against `scenarioTransport`. -/
def scenarioRun : FetchResult :=
  fetch_events_fixed [] scenarioTransport "0xcontract" 99999 0 (some 25000)

/-- A concrete sample event for the decoder claims: a 3-argument `Transfer`
with two indexed inputs. -/
def demoEvent : ContractEvent :=
  { name := "Transfer", anonymous := false, topic0 := "0xddf2",
    inputs := [{ name := "from", indexed := true },
               { name := "to", indexed := true },
               { name := "value", indexed := false }] }

/-- Decoder table of a contract whose ABI declares just `demoEvent`. -/
def demoTable : List ContractEvent := events_by_topic [demoEvent]

/-- An entry whose first topic matches `demoEvent`. -/
def demoEntryMatched : LogEntry :=
  { blockNumber := 7, topics := ["0xddf2", "0xa1", "0xa2"], data := ["0x64"] }

/-- An entry with no topics at all. -/
def demoEntryNoTopics : LogEntry := { blockNumber := 8, topics := [] }

/-- An entry whose first topic matches no registered event. -/
def demoEntryUnmatched : LogEntry :=
  { blockNumber := 9, topics := ["0xbeef", "0xa1"], data := ["0x64"] }

/-- Executable check that a list of blocks is strictly increasing. -/
def strictlyAscending : List Int → Bool
  | [] => true
  | [_] => true
  | a :: b :: rest => (a < b) && strictlyAscending (b :: rest)

/-- Executable check that a list of blocks is non-decreasing. -/
def nonDecreasing : List Int → Bool
  | [] => true
  | [_] => true
  | a :: b :: rest => (a ≤ b) && nonDecreasing (b :: rest)

/-- Concrete bulk-run task A. -/
def taskA : FetchTask :=
  { address := "0xaaa", start_block := 0, end_block := some 100, name := some "A" }

/-- Concrete bulk-run task B. -/
def taskB : FetchTask :=
  { address := "0xbbb", start_block := 0, end_block := some 100, name := some "B" }

/-! ## Theorems -/

/-- The partition of lines 153-156 in closed form: one interval per
iteration index. -/
theorem sub_ranges_eq (g : Nat) (s e : Int) :
    sub_ranges g s e = (List.range (iterations g s e)).map
      (fun i : Nat => (s + (i : Int) * (g : Int),
                 min (s + (i : Int) * (g : Int) + (g : Int) - 1) e)) := by
  unfold sub_ranges end_blocks start_blocks
  rw [List.map_map, List.zip_map']
  rfl

/-- Arithmetic helper: any natural is below the next multiple of `g` after
its floor quotient. -/
theorem lt_div_succ_mul (a g : Nat) (hg : 0 < g) : a < (a / g + 1) * g := by
  have h1 := Nat.div_add_mod a g
  have h2 := Nat.mod_lt a hg
  calc a = g * (a / g) + a % g := h1.symm
    _ < g * (a / g) + g := by omega
    _ = (a / g + 1) * g := by ring

/-- C7: for every candidate width `g ≥ 1` and every slice `s ≤ e`, the
computed sub-ranges are inclusive intervals in ascending start order,
pairwise disjoint, exactly covering `[s, e]`, each of width at most `g` and
ending no later than `e`. -/
theorem sub_ranges_partition (g : Nat) (s e : Int) (hg : 1 ≤ g) (hse : s ≤ e) :
    ((sub_ranges g s e).Pairwise fun r r' => r.1 < r'.1 ∧ r.2 < r'.1) ∧
    (∀ r ∈ sub_ranges g s e, r.1 ≤ r.2 ∧ r.2 ≤ e ∧ r.2 - r.1 + 1 ≤ (g : Int)) ∧
    (∀ b : Int, (s ≤ b ∧ b ≤ e) ↔ ∃ r ∈ sub_ranges g s e, r.1 ≤ b ∧ b ≤ r.2) := by
  have hg' : (0 : Int) < (g : Int) := by exact_mod_cast hg
  have hn : iterations g s e = (e - s).toNat / g + 1 := if_pos hse
  have hes : ((e - s).toNat : Int) = e - s := Int.toNat_of_nonneg (by linarith)
  rw [sub_ranges_eq]
  refine ⟨?_, ?_, ?_⟩
  · refine List.Pairwise.map _ (fun i j hij => ?_) (List.pairwise_lt_range _)
    dsimp only
    have h1 : (i : Int) + 1 ≤ (j : Int) := by exact_mod_cast hij
    have h2 : ((i : Int) + 1) * g ≤ (j : Int) * g :=
      mul_le_mul_of_nonneg_right h1 hg'.le
    constructor
    · nlinarith
    · refine lt_of_le_of_lt (min_le_left _ _) ?_
      nlinarith
  · intro r hr
    simp only [List.mem_map, List.mem_range] at hr
    obtain ⟨i, hi, rfl⟩ := hr
    rw [hn] at hi
    have h1 : i ≤ (e - s).toNat / g := Nat.lt_succ_iff.mp hi
    have h2 : i * g ≤ (e - s).toNat :=
      (Nat.le_div_iff_mul_le (by omega)).mp h1
    have h3 : (i : Int) * g ≤ e - s := by
      have := (Int.ofNat_le.mpr h2)
      push_cast at this
      linarith [hes ▸ this]
    dsimp only
    refine ⟨le_min (by linarith) (by linarith), min_le_right _ _, ?_⟩
    have h4 := min_le_left (s + (i : Int) * g + g - 1) e
    linarith
  · intro b
    constructor
    · rintro ⟨hsb, hbe⟩
      have hbs : ((b - s).toNat : Int) = b - s := Int.toNat_of_nonneg (by linarith)
      refine ⟨_, List.mem_map.mpr ⟨(b - s).toNat / g, List.mem_range.mpr ?_, rfl⟩, ?_, ?_⟩
      · rw [hn]
        have : (b - s).toNat ≤ (e - s).toNat := by omega
        exact Nat.lt_succ_of_le (Nat.div_le_div_right this)
      · have h2 : (b - s).toNat / g * g ≤ (b - s).toNat := Nat.div_mul_le_self _ _
        have h3 : (((b - s).toNat / g : Nat) : Int) * g ≤ b - s := by
          have h := Int.ofNat_le.mpr h2
          rw [Nat.cast_mul, hbs] at h
          exact h
        dsimp only
        linarith
      · have h2 : (b - s).toNat < ((b - s).toNat / g + 1) * g :=
          lt_div_succ_mul _ _ (by omega)
        have h3 : b - s < (((b - s).toNat / g : Nat) : Int) * g + g := by
          have h := Int.ofNat_lt.mpr h2
          rw [hbs, Nat.cast_mul, Nat.cast_add, Nat.cast_one, add_mul, one_mul] at h
          exact h
        dsimp only
        refine le_min (by linarith) hbe
    · rintro ⟨r, hr, hb1, hb2⟩
      simp only [List.mem_map, List.mem_range] at hr
      obtain ⟨i, hi, rfl⟩ := hr
      dsimp only at hb1 hb2
      have h0 : (0 : Int) ≤ (i : Int) * g := by positivity
      constructor
      · linarith
      · exact le_trans hb2 (min_le_right _ _)

/-- Concrete instance of `sub_ranges_partition`: width 3 over `[0, 7]`
covers block 5. -/
theorem sub_ranges_partition_witness :
    ((0 : Int) ≤ 5 ∧ (5 : Int) ≤ 7) ↔ ∃ r ∈ sub_ranges 3 0 7, r.1 ≤ 5 ∧ 5 ≤ r.2 :=
  (sub_ranges_partition 3 0 7 (by decide) (by decide)).2.2 5

/-- A non-empty slice always has a first sub-range, starting at the slice
start. -/
theorem sub_ranges_head (g : Nat) (s e : Int) (hse : s ≤ e) :
    ∃ rest, sub_ranges g s e = (s, min (s + (g : Int) - 1) e) :: rest := by
  rw [sub_ranges_eq]
  unfold iterations
  rw [if_pos hse, List.range_succ_eq_map, List.map_cons]
  refine ⟨List.map
      (fun i : Nat => (s + (i : Int) * (g : Int),
        min (s + (i : Int) * (g : Int) + (g : Int) - 1) e))
      (List.map Nat.succ (List.range ((e - s).toNat / g))), ?_⟩
  norm_num

/-- Against a transport that fails every request, a width attempt on a
non-empty slice fails after exactly one request (the one for the first
sub-range). -/
theorem fetch_batch_parallel_error (tbl : List ContractEvent) (err : PyError)
    (t : Transport) (ht : ∀ a b, t a b = .error err) (g : Nat) (s e : Int)
    (hse : s ≤ e) :
    _fetch_batch_parallel tbl t (sub_ranges g s e)
      = (.error err, [(s, min (s + (g : Int) - 1) e)]) := by
  obtain ⟨rest, hr⟩ := sub_ranges_head g s e hse
  rw [_fetch_batch_parallel, hr]
  simp [runRanges, _fetch_events, ht]

/-- C9: the width step-down loop catches every exception of a failed width
attempt — whatever its kind, transport or not — retries the slice once per
remaining width, and, when every width fails, raises the unfetchable-range
`ValueError` naming the contract and the range instead of the original
exception. -/
theorem fetch_batch_go_swallows_all (tbl : List ContractEvent) (address : String)
    (s e : Int) (err : PyError) (t : Transport)
    (hse : s ≤ e) (ht : ∀ a b, t a b = .error err) (gs : List Nat) :
    (fetch_batch_go tbl t address s e gs).1
        = .error (.valueError (unfetchableMsg address s e)) ∧
    (fetch_batch_go tbl t address s e gs).2.length = gs.length := by
  induction gs with
  | nil => exact ⟨rfl, rfl⟩
  | cons g gs ih =>
    have hp := fetch_batch_parallel_error tbl err t ht g s e hse
    refine ⟨?_, ?_⟩ <;>
      simp [fetch_batch_go, hp, ih.1, ih.2]

/-- Concrete instance of `fetch_batch_go_swallows_all`: a decoding failure
(not a transport error) at every width over `[0, 5]` is swallowed at each of
the five candidate widths and surfaces as the unfetchable-range error. -/
theorem fetch_batch_go_swallows_all_witness :
    (fetch_batch_go [] (fun _ _ => .error .decodeError) "0xc9" 0 5
        BLOCK_GRANUALARITIES).1
        = .error (.valueError (unfetchableMsg "0xc9" 0 5)) ∧
    (fetch_batch_go [] (fun _ _ => .error .decodeError) "0xc9" 0 5
        BLOCK_GRANUALARITIES).2.length = BLOCK_GRANUALARITIES.length :=
  fetch_batch_go_swallows_all [] "0xc9" 0 5 .decodeError _ (by decide)
    (fun _ _ => rfl) BLOCK_GRANUALARITIES

/-- C8: both `fetch_events` and `_fetch_batch` read the class attribute
`BLOCK_GRANULARITIES`, while the class body defines the width list under the
name `BLOCK_GRANUALARITIES`; attribute resolution therefore fails, each
method raises `AttributeError` regardless of its arguments, and no transport
request is ever issued. -/
theorem attribute_error_before_any_call (tbl : List ContractEvent) (t : Transport)
    (address : String) (chainHead s e : Int) (e? : Option Int) :
    classAttrs "BLOCK_GRANUALARITIES" = some [10000, 1000, 100, 10, 1] ∧
    classAttrs "BLOCK_GRANULARITIES" = none ∧
    fetch_events tbl t address chainHead s e? = (.error .attributeError, []) ∧
    _fetch_batch tbl t address s e = (.error .attributeError, []) :=
  ⟨rfl, rfl, rfl, rfl⟩

/-- The decoded argument list carries exactly the declared input names, in
declaration order. -/
theorem decodeArgs_names (inputs : List EventInput) (ts ds : List String) :
    (decodeArgs inputs ts ds).map Prod.fst = inputs.map EventInput.name := by
  induction inputs generalizing ts ds with
  | nil => rfl
  | cons inp rest ih =>
    rw [decodeArgs]
    by_cases h : inp.indexed <;> simp [h, ih]

/-- C4: a log entry with a non-empty topics list whose first topic is
registered decodes to an event whose named arguments are exactly the event's
ABI-declared parameter names, in declaration order; an entry with no topics,
or an unregistered first topic, is returned unchanged — decoding never
fails. -/
theorem process_log_decoding (tbl : List ContractEvent) (entry : LogEntry)
    (t0 : String) (ts : List String) (ev : ContractEvent) :
    (entry.topics = t0 :: ts → lookupTopic tbl t0 = some ev →
      (process_log tbl entry).namedArguments.map (List.map Prod.fst)
          = some (ev.inputs.map EventInput.name)) ∧
    (entry.topics = [] → process_log tbl entry = entry) ∧
    (entry.topics = t0 :: ts → lookupTopic tbl t0 = none →
      process_log tbl entry = entry) := by
  refine ⟨?_, ?_, ?_⟩
  · intro htop hlk
    simp [process_log, htop, hlk, processLog, decodeArgs_names]
  · intro htop
    simp [process_log, htop]
  · intro htop hlk
    simp [process_log, htop, hlk]

/-- Concrete instance of `process_log_decoding`: a matching entry yields the
three declared names in order; entries with no topics or an unmatched topic
pass through unchanged. -/
theorem process_log_decoding_witness :
    (process_log demoTable demoEntryMatched).namedArguments.map (List.map Prod.fst)
        = some ["from", "to", "value"] ∧
    process_log demoTable demoEntryNoTopics = demoEntryNoTopics ∧
    process_log demoTable demoEntryUnmatched = demoEntryUnmatched := by
  refine ⟨?_, ?_, ?_⟩
  · have h := (process_log_decoding demoTable demoEntryMatched "0xddf2"
      ["0xa1", "0xa2"] demoEvent).1 rfl (by decide)
    simpa [demoEvent] using h
  · exact (process_log_decoding demoTable demoEntryNoTopics "" [] demoEvent).2.1 rfl
  · exact (process_log_decoding demoTable demoEntryUnmatched "0xbeef" ["0xa1"]
      demoEvent).2.2 rfl (by decide)

/-- C10: decoding a list of entries keeps its length and acts pointwise —
element `i` of the output is exactly `process_log` of element `i` of the
input, so no entry is dropped, duplicated or reordered. -/
theorem process_logs_pointwise (tbl : List ContractEvent) (events : List LogEntry)
    (i : Nat) :
    (process_logs tbl events).length = events.length ∧
    (process_logs tbl events)[i]? = (events[i]?).map (process_log tbl) := by
  refine ⟨?_, ?_⟩ <;> simp [process_logs]

/-- The executable strictness check agrees with `List.Chain' (· < ·)`. -/
theorem strictlyAscending_iff_chain (l : List Int) :
    strictlyAscending l = true ↔ List.Chain' (· < ·) l := by
  induction l with
  | nil => simp [strictlyAscending]
  | cons a l ih =>
    cases l with
    | nil => simp [strictlyAscending]
    | cons b t =>
      rw [strictlyAscending, List.chain'_cons, Bool.and_eq_true, decide_eq_true_eq, ih]

/-- The executable monotonicity check agrees with `List.Chain' (· ≤ ·)`. -/
theorem nonDecreasing_iff_chain (l : List Int) :
    nonDecreasing l = true ↔ List.Chain' (· ≤ ·) l := by
  induction l with
  | nil => simp [nonDecreasing]
  | cons a l ih =>
    cases l with
    | nil => simp [nonDecreasing]
    | cons b t =>
      rw [nonDecreasing, List.chain'_cons, Bool.and_eq_true, decide_eq_true_eq, ih]

/-- C1 (spec scenario, range `0..25000`, transport rejecting requests wider
than 5000 blocks): the code as written raises `AttributeError` before any
transport request; the same engine with the attribute-name slip corrected
realises the scenario — within each outer slice the width-10000 attempt
fails and the slice succeeds at width 1000, 26 sub-range calls succeed, the
total call count is the 3 failed wide attempts plus 26, and the yielded
events are block-ascending. -/
theorem scenario_fetch :
    fetch_events [] scenarioTransport "0xcontract" 99999 0 (some 25000)
        = (.error .attributeError, []) ∧
    scenarioRun.1 = .ok (scenarioBlocks.map fun b => { blockNumber := b, topics := [] }) ∧
    scenarioRun.2 = scenarioCalls ∧
    (scenarioCalls.filter fun c => c.2 - c.1 + 1 ≤ 5000).length = 26 ∧
    (scenarioCalls.filter fun c => 5000 < c.2 - c.1 + 1).length = 3 ∧
    scenarioCalls.length = 3 + 26 ∧
    List.Chain' (· < ·) scenarioBlocks :=
  ⟨rfl, rfl, rfl, by decide, by decide, rfl,
   (strictlyAscending_iff_chain _).mp rfl⟩

/-- C2: every single-job fetch raises `AttributeError` before yielding
anything, so no event sequence is ever produced; with the slip corrected the
scenario output is strictly block-ascending, but a transport answering two
events in one block yields an output that is only non-decreasing, not
strictly increasing. -/
theorem single_job_yield_order :
    (∀ (tbl : List ContractEvent) (t : Transport) (address : String)
        (chainHead s : Int) (e? : Option Int),
        fetch_events tbl t address chainHead s e? = (.error .attributeError, [])) ∧
    List.Chain' (· < ·) ((scenarioRun.1.toOption.getD []).map LogEntry.blockNumber) ∧
    (fetch_events_fixed [] dupTransport "0xdup" 99999 0 (some 5)).1
        = .ok [{ blockNumber := 0, topics := [] }, { blockNumber := 0, topics := [] }] ∧
    ¬ List.Chain' (· < ·)
        (((fetch_events_fixed [] dupTransport "0xdup" 99999 0 (some 5)).1.toOption.getD
          []).map LogEntry.blockNumber) ∧
    List.Chain' (· ≤ ·)
        (((fetch_events_fixed [] dupTransport "0xdup" 99999 0 (some 5)).1.toOption.getD
          []).map LogEntry.blockNumber) :=
  ⟨fun _ _ _ _ _ _ => rfl,
   (strictlyAscending_iff_chain _).mp rfl,
   rfl,
   fun h => absurd ((strictlyAscending_iff_chain _).mpr h) (by decide),
   (nonDecreasing_iff_chain _).mp rfl⟩

/-- C3: `_fetch_batch` raises `AttributeError` on entry, before any width
attempt; with the slip corrected, a transport failure at a non-finest width
is not surfaced (the slice is retried finer and succeeds), while a transport
failing at every width — the finest included — yields the fatal `ValueError`
whose message names the contract address and the offending block range. -/
theorem step_down_error_handling :
    _fetch_batch [] scenarioTransport "0xcontract" 0 9999
        = (.error .attributeError, []) ∧
    (_fetch_batch_fixed [] scenarioTransport "0xcontract" 0 9999).1
        = .ok (([0, 1000, 2000, 3000, 4000, 5000, 6000, 7000, 8000, 9000] : List Int).map
            fun b => { blockNumber := b, topics := [] }) ∧
    (_fetch_batch_fixed [] failingTransport "0xcontract" 5 9).1
        = .error (.valueError (unfetchableMsg "0xcontract" 5 9)) ∧
    unfetchableMsg "0xcontract" 5 9
        = "unable to fetch events for 0xcontract from block 5 to 9" :=
  ⟨rfl, rfl, rfl, rfl⟩

/-- C5: with a transport that succeeds on every request, the code still
raises `AttributeError` and issues no request at all; with the slip
corrected, every request of the run is issued at the largest candidate width
— the call log is exactly the width-10000 partition of the range — and no
finer width is ever tried. -/
theorem widest_width_when_transport_ok :
    fetch_events [] okTransport "0xc5" 99999 0 (some 25000)
        = (.error .attributeError, []) ∧
    (fetch_events_fixed [] okTransport "0xc5" 99999 0 (some 25000)).2
        = sub_ranges 10000 0 25000 ∧
    (fetch_events_fixed [] okTransport "0xc5" 99999 0 (some 25000)).2
        = [(0, 9999), (10000, 19999), (20000, 25000)] ∧
    ((fetch_events_fixed [] okTransport "0xc5" 99999 0 (some 25000)).2.all
        fun c => c.2 - c.1 + 1 ≤ 10000) = true :=
  ⟨rfl, rfl, rfl, by decide⟩

/-- Each job opens its sink and then fails fetching, so persisting one task
creates (or truncates) exactly its own file, leaving it empty, and reports
the `AttributeError`. -/
theorem fetch_and_persist_eq (t : Transport) (chainHead : Int) (task : FetchTask)
    (p : String) (fs : FileSystem) :
    fetch_and_persist_events t chainHead task p fs
      = (setFile fs p [], some .attributeError) := rfl

/-- One unfolding step of the bulk run. -/
theorem fetch_all_events_cons (t : Transport) (chainHead : Int) (task : FetchTask)
    (rest : List FetchTask) (dir : String) (fs : FileSystem) :
    fetch_all_events t chainHead (task :: rest) dir fs
      = ((fetch_all_events t chainHead rest dir
            (setFile fs (filepath dir task) [])).1,
         .failed task.name task.address .attributeError ::
           (fetch_all_events t chainHead rest dir
             (setFile fs (filepath dir task) [])).2) := rfl

/-- Reading back a freshly written file. -/
theorem readFile_set_same (fs : FileSystem) (p : String) (c : List String) :
    readFile? (setFile fs p c) p = some c := by
  simp [readFile?, setFile, List.lookup]

/-- Filtering out another path's entries does not change a lookup. -/
theorem lookup_filter_ne (fs : FileSystem) (p q : String) (h : q ≠ p) :
    List.lookup q (fs.filter fun r => r.1 != p) = List.lookup q fs := by
  induction fs with
  | nil => rfl
  | cons x rest ih =>
    obtain ⟨k, v⟩ := x
    by_cases hx : k = p
    · subst hx
      rw [List.filter_cons_of_neg (by simp)]
      have hq : (q == k) = false := beq_eq_false_iff_ne.mpr h
      simp [List.lookup, hq, ih]
    · rw [List.filter_cons_of_pos (by simp [hx])]
      by_cases hqk : q = k
      · subst hqk
        simp [List.lookup]
      · have hq : (q == k) = false := beq_eq_false_iff_ne.mpr hqk
        simp [List.lookup, hq, ih]

/-- Writing one path leaves every other path's content unchanged. -/
theorem readFile_set_other (fs : FileSystem) (p q : String) (c : List String)
    (h : q ≠ p) :
    readFile? (setFile fs p c) q = readFile? fs q := by
  have hq : (q == p) = false := beq_eq_false_iff_ne.mpr h
  simp [readFile?, setFile, List.lookup, hq, lookup_filter_ne fs p q h]

/-- A bulk run either leaves a path's content untouched or leaves it an
empty file: jobs only create their own sinks. -/
theorem bulk_preserves_or_empties (t : Transport) (chainHead : Int)
    (tasks : List FetchTask) (dir : String) (p : String) :
    ∀ fs : FileSystem,
      readFile? (fetch_all_events t chainHead tasks dir fs).1 p = readFile? fs p ∨
      readFile? (fetch_all_events t chainHead tasks dir fs).1 p = some [] := by
  induction tasks with
  | nil => exact fun fs => Or.inl rfl
  | cons task rest ih =>
    intro fs
    rw [fetch_all_events_cons]
    rcases ih (setFile fs (filepath dir task) []) with h | h
    · by_cases hp : p = filepath dir task
      · subst hp
        right
        rw [h, readFile_set_same]
      · left
        rw [h, readFile_set_other _ _ _ _ hp]
    · right
      exact h

/-- C6 (amended): the bulk run attempts every task; each job's exception is
caught at the per-job boundary and logged with the task's name and address,
the other jobs' sinks are unaffected, and the call returns rather than
raising.  Since a job opens its sink before fetching and every fetch fails
with the attribute slip, every task's file exists afterwards — created
empty — rather than no file being produced. -/
theorem bulk_run_per_job_isolation (t : Transport) (chainHead : Int)
    (tasks : List FetchTask) (dir : String) (fs : FileSystem) :
    (fetch_all_events t chainHead tasks dir fs).2
        = tasks.map (fun task => .failed task.name task.address .attributeError) ∧
    ∀ task ∈ tasks,
      readFile? (fetch_all_events t chainHead tasks dir fs).1 (filepath dir task)
          = some [] := by
  induction tasks generalizing fs with
  | nil => exact ⟨rfl, by simp⟩
  | cons task rest ih =>
    rw [fetch_all_events_cons]
    refine ⟨by simp [(ih _).1], ?_⟩
    intro task' h'
    rcases List.mem_cons.mp h' with h | h
    · subst h
      rcases bulk_preserves_or_empties t chainHead rest dir (filepath dir task')
          (setFile fs (filepath dir task') []) with hc | hc
      · rw [hc, readFile_set_same]
      · exact hc
    · exact (ih _).2 task' h

/-- Concrete instance of `bulk_run_per_job_isolation`: task A's sink exists
and is empty after the two-task bulk run. -/
theorem bulk_run_per_job_isolation_witness :
    readFile? (fetch_all_events scenarioTransport 99999 [taskA, taskB] "outdir" []).1
        (filepath "outdir" taskA) = some [] :=
  (bulk_run_per_job_isolation scenarioTransport 99999 [taskA, taskB] "outdir" []).2
    taskA (List.mem_cons_self _ _)

/-- C6 (counterexample to the claim as stated): in a concrete two-task bulk
run, job B fails and is logged — yet B's output file exists afterwards
(created empty at open time), contradicting that a failing job produces no
file; job A does not succeed either, its fetch failing the same way. -/
theorem bulk_failing_job_creates_file :
    readFile? (fetch_all_events scenarioTransport 99999 [taskA, taskB] "out" []).1
        "out/B.jsonl.gz" = some [] ∧
    (fetch_all_events scenarioTransport 99999 [taskA, taskB] "out" []).2
        = [.failed (some "A") "0xaaa" .attributeError,
           .failed (some "B") "0xbbb" .attributeError] :=
  ⟨rfl, rfl⟩

end EthTools
